import Mathlib

/-!
Verification development for the codefresh Terraform provider sources.

The Go sources are shallowly embedded: each Go function that the
specification talks about becomes a Lean definition with the same name,
structure fields keep the Go field names, and external collaborators
(the HTTP transport, the YAML codec, helper packages that are not part
of the sources) are passed in as explicit parameters or modelled from
the specification where noted.
-/

/- ===================== HTTP client (client/client.go) ===================== -/

/-- `Client` from client/client.go: base host, auth token.  The embedded
`http.Client` transport handle is replaced by an explicit `transport`
parameter to `RequestAPI`, since the network is an external collaborator. -/
structure Client where
  Token : String
  Host : String
deriving Repr, DecidableEq

/-- `RequestOptions` from client/client.go.  `QS` is `map[string]string`,
which may be `nil` (modelled `none`) or a possibly empty association list;
Go map iteration order is unspecified, so the list order stands for one
such iteration order. -/
structure RequestOptions where
  Path : String
  Method : String
  Body : String
  QS : Option (List (String × String))

/-- The outgoing HTTP request assembled by `RequestAPI` (method, final URL,
body, headers set via `request.Header.Set`). -/
structure HttpRequest where
  method : String
  url : String
  body : String
  headers : List (String × String)

/-- An HTTP response as `RequestAPI` observes it: numeric status code,
status line text (`resp.Status`), and the fully buffered body
(`ioutil.ReadAll`). -/
structure HttpResponse where
  statusCode : Nat
  status : String
  body : String
deriving Repr, DecidableEq

/-- `ToQS` from client/client.go: `"?"` followed by `k=v` pairs joined with
`"&"`; no percent-encoding is applied. -/
def ToQS (qs : List (String × String)) : String :=
  "?" ++ String.intercalate "&" (qs.map (fun p => p.1 ++ "=" ++ p.2))

/-- The request `RequestAPI` builds before handing it to the transport:
URL is host ++ path (++ query string when `QS` is non-nil), the
`Authorization` header is the raw token and `Content-Type` is fixed. -/
def buildRequest (client : Client) (opt : RequestOptions) : HttpRequest :=
  let finalURL := client.Host ++ opt.Path ++
    (match opt.QS with
     | some qs => ToQS qs
     | none => "")
  { method := opt.Method
    url := finalURL
    body := opt.Body
    headers := [("Authorization", client.Token),
                ("Content-Type", "application/json; charset=utf-8")] }

/-- `RequestAPI` from client/client.go.  `transport` stands for
`client.Client.Do` plus the body read: a transport-level failure is an
`Except.error`.  On a non-200 status the result is the error
`fmt.Errorf("%v, %s", resp.Status, string(body))`; on 200 the buffered
body is returned. -/
def RequestAPI (client : Client) (transport : HttpRequest → Except String HttpResponse)
    (opt : RequestOptions) : Except String String :=
  match transport (buildRequest client opt) with
  | .error e => .error e
  | .ok resp =>
    if resp.statusCode ≠ 200 then
      .error (resp.status ++ ", " ++ resp.body)
    else
      .ok resp.body

/-- C6: for every response with HTTP status other than 200, `RequestAPI`
returns no bytes but an error whose message contains both the status text
and the raw body verbatim; for a 200 response it returns the full buffered
body and no error. -/
theorem requestAPI_status_handling
    (client : Client) (transport : HttpRequest → Except String HttpResponse)
    (opt : RequestOptions) (resp : HttpResponse)
    (htr : transport (buildRequest client opt) = .ok resp) :
    (resp.statusCode ≠ 200 →
      RequestAPI client transport opt = .error (resp.status ++ ", " ++ resp.body) ∧
      (∃ a b, resp.status ++ ", " ++ resp.body = a ++ resp.status ++ b) ∧
      (∃ a b, resp.status ++ ", " ++ resp.body = a ++ resp.body ++ b)) ∧
    (resp.statusCode = 200 →
      RequestAPI client transport opt = .ok resp.body) := by
  constructor
  · intro hne
    refine ⟨?_, ⟨"", ", " ++ resp.body, by apply String.ext; simp⟩,
      ⟨resp.status ++ ", ", "", by simp⟩⟩
    simp [RequestAPI, htr, hne]
  · intro heq
    simp [RequestAPI, htr, heq]

/-- Witness for C6: a concrete 404 with body
`\x7b"message":"not found"\x7d` yields exactly the error
`404 Not Found, \x7b"message":"not found"\x7d`, which contains the status
text and the body. -/
theorem requestAPI_status_handling_witness :
    RequestAPI { Token := "tok", Host := "https://h" }
      (fun _ => .ok { statusCode := 404, status := "404 Not Found",
                      body := "\x7b\x22message\x22:\x22not found\x22\x7d" })
      { Path := "/p", Method := "GET", Body := "", QS := none }
      = .error ("404 Not Found" ++ ", " ++ "\x7b\x22message\x22:\x22not found\x22\x7d") := by
  have h := requestAPI_status_handling
    { Token := "tok", Host := "https://h" }
    (fun _ => .ok { statusCode := 404, status := "404 Not Found",
                    body := "\x7b\x22message\x22:\x22not found\x22\x7d" })
    { Path := "/p", Method := "GET", Body := "", QS := none }
    { statusCode := 404, status := "404 Not Found",
      body := "\x7b\x22message\x22:\x22not found\x22\x7d" }
    rfl
  exact (h.1 (by decide)).1

/-- C8: `RequestAPI` builds the URL as host ++ path, appends `ToQS` output
exactly when query parameters are present (`?` then `k=v` joined with `&`,
no percent-encoding applied to keys or values), and sets the
`Authorization` header to the raw token and `Content-Type` to
`application/json; charset=utf-8`. -/
theorem requestAPI_builds_request
    (client : Client) (opt : RequestOptions) (m : List (String × String))
    (k v : String) :
    ((buildRequest client opt).headers =
        [("Authorization", client.Token),
         ("Content-Type", "application/json; charset=utf-8")]) ∧
    (opt.QS = none → (buildRequest client opt).url = client.Host ++ opt.Path) ∧
    (opt.QS = some m → (buildRequest client opt).url =
        client.Host ++ opt.Path ++
          ("?" ++ String.intercalate "&" (m.map (fun p => p.1 ++ "=" ++ p.2)))) ∧
    ToQS [(k, v)] = "?" ++ (k ++ "=" ++ v) := by
  refine ⟨rfl, ?_, ?_, ?_⟩
  · intro h
    simp [buildRequest, h]
  · intro h
    simp [buildRequest, h, ToQS]
  · simp [ToQS, String.intercalate, String.intercalate.go]

/-- Witness for C8 at a concrete client, option set and query pair with
reserved characters left unencoded. -/
theorem requestAPI_builds_request_witness :
    (buildRequest { Token := "raw-token", Host := "https://h" }
        { Path := "/api/x", Method := "GET", Body := "",
          QS := some [("a b", "c&d")] }).url =
      "https://h" ++ "/api/x" ++
        ("?" ++ String.intercalate "&"
          ([("a b", "c&d")].map (fun p => p.1 ++ "=" ++ p.2))) := by
  exact (requestAPI_builds_request
    { Token := "raw-token", Host := "https://h" }
    { Path := "/api/x", Method := "GET", Body := "", QS := some [("a b", "c&d")] }
    [("a b", "c&d")] "a b" "c&d").2.2.1 rfl

/- ========== Permission resource (codefresh/resource_permission.go) ========== -/

/-- `cfclient.Permission`, as read and written by resource_permission.go. -/
structure Permission where
  ID : String
  Team : String
  Action : String
  Resource : String
  RelatedResource : String
  RuleType : String
  Tags : List String
deriving Repr, DecidableEq

/-- The permission resource data: `id` is the Terraform identity (`d.Id()`),
`idAttr` the `_id` attribute, the rest the schema fields.  `tags` is a
`TypeSet` of strings, modelled as a list in one iteration order. -/
structure PermissionResource where
  id : String
  idAttr : String
  team : String
  resource : String
  relatedResource : String
  action : String
  ruleType : String
  tags : List String
deriving Repr, DecidableEq

/-- Modelled from the spec: `datautil.ConvertStringArr` is a helper package
not under src/; it converts a `[]interface\x7b\x7d` of strings to
`[]string`, which in this typed embedding is the identity. -/
def ConvertStringArr (l : List String) : List String := l

/-- `mapResourceToPermission` from resource_permission.go: an empty declared
tag set is replaced by the default `["*", "untagged"]`. -/
def mapResourceToPermission (d : PermissionResource) : Permission :=
  { ID := d.id
    Team := d.team
    Action := d.action
    Resource := d.resource
    RelatedResource := d.relatedResource
    RuleType := d.ruleType
    Tags := if d.tags.length > 0 then ConvertStringArr d.tags else ["*", "untagged"] }

/-- `mapPermissionToResource` from resource_permission.go: copies every field
of the API permission onto the resource data.  All the `d.Set` calls are on
schema-typed values here, so none of them fails. -/
def mapPermissionToResource (p : Permission) (d : PermissionResource) : PermissionResource :=
  { d with
    idAttr := p.ID
    team := p.Team
    action := p.Action
    resource := p.Resource
    relatedResource := p.RelatedResource
    tags := p.Tags
    ruleType := p.RuleType }

/-- One call issued to the API client by the permission resource handlers. -/
inductive ApiCall where
  | createPermission : Permission → ApiCall
  | deletePermission : String → ApiCall
  | updatePermissionTags : Permission → ApiCall
  | getPermissionByID : String → ApiCall
deriving Repr, DecidableEq

/-- The `cfclient.Client` surface used by the permission handlers, as an
oracle for the external service: each operation may fail. -/
structure PermClient where
  createPermission : Permission → Except String Permission
  deletePermission : String → Except String Unit
  updatePermissionTags : Permission → Except String Unit
  getPermissionByID : String → Except String Permission

/-- `resourcePermissionDelete`: one DeletePermission call on the current id;
its error is returned.  The first component is the trace of API calls. -/
def resourcePermissionDelete (cl : PermClient) (d : PermissionResource) :
    List ApiCall × Except String Unit :=
  ([ApiCall.deletePermission d.id], cl.deletePermission d.id)

/-- `resourcePermissionRead`: empty id clears the id and returns with no
call; otherwise one GetPermissionByID call, whose result (on success) is
mapped onto the resource. -/
def resourcePermissionRead (cl : PermClient) (d : PermissionResource) :
    List ApiCall × Except String PermissionResource :=
  if d.id = "" then
    ([], .ok { d with id := "" })
  else
    ([ApiCall.getPermissionByID d.id],
     match cl.getPermissionByID d.id with
     | .error e => .error e
     | .ok p => .ok (mapPermissionToResource p d))

/-- `d.HasChanges("team", "action", "related_resource", "resource",
"rule_type")` in `resourcePermissionUpdate`, comparing prior state `old`
against the declared data `d`. -/
def hasChangesPermissionKeyFields (old d : PermissionResource) : Bool :=
  old.team != d.team || old.action != d.action ||
  old.relatedResource != d.relatedResource || old.resource != d.resource ||
  old.ruleType != d.ruleType

/-- `resourcePermissionUpdate` from resource_permission.go.  On a key-field
change: delete (error only logged, never returned), then create (error
returned), then read.  On a pure tag change: one UpdatePermissionTags call,
then read.  Otherwise just the read.  The first component is the trace of
API calls actually issued. -/
def resourcePermissionUpdate (cl : PermClient) (old d : PermissionResource) :
    List ApiCall × Except String PermissionResource :=
  let permission := mapResourceToPermission d
  if hasChangesPermissionKeyFields old d then
    let del := resourcePermissionDelete cl d
    match cl.createPermission permission with
    | .error e => (del.1 ++ [ApiCall.createPermission permission], .error e)
    | .ok resp =>
      let rd := resourcePermissionRead cl { d with id := resp.ID }
      (del.1 ++ [ApiCall.createPermission permission] ++ rd.1, rd.2)
  else if old.tags ≠ d.tags then
    match cl.updatePermissionTags permission with
    | .error e => ([ApiCall.updatePermissionTags permission], .error e)
    | .ok _ =>
      let rd := resourcePermissionRead cl d
      (ApiCall.updatePermissionTags permission :: rd.1, rd.2)
  else
    resourcePermissionRead cl d

/-- `resourcePermissionCustomDiff` from resource_permission.go: cross-field
validation evaluated at plan time, before any HTTP call. -/
def resourcePermissionCustomDiff (old d : PermissionResource) : Except String Unit :=
  if (old.resource != d.resource || old.relatedResource != d.relatedResource) &&
     (d.relatedResource != "" && d.resource != "pipeline") then
    .error "related_resource is only valid when resource is pipeline"
  else if (old.resource != d.resource || old.action != d.action) &&
     (["run", "approve", "debug"].contains d.action && d.resource != "pipeline") then
    .error ("action " ++ d.action ++ " is only valid when resource is pipeline")
  else
    .ok ()

def isCreateCall : ApiCall → Bool
  | .createPermission _ => true
  | _ => false

def isDeleteCall : ApiCall → Bool
  | .deletePermission _ => true
  | _ => false

def isUpdateTagsCall : ApiCall → Bool
  | .updatePermissionTags _ => true
  | _ => false

/-- C4: a pure tag change issues exactly one UpdatePermissionTags call and
no delete or create call; a change to any of team, action,
related_resource, resource or rule_type issues one DeletePermission call
followed immediately by one CreatePermission call, for every client
behaviour — in particular a failing delete does not prevent the create
call from being attempted, and the whole outcome is independent of the
delete result (the delete error is swallowed, never returned). -/
theorem resourcePermissionUpdate_call_pattern
    (cl : PermClient) (old d : PermissionResource) :
    (hasChangesPermissionKeyFields old d = false → old.tags ≠ d.tags →
      ((resourcePermissionUpdate cl old d).1.countP isUpdateTagsCall = 1 ∧
       (resourcePermissionUpdate cl old d).1.countP isDeleteCall = 0 ∧
       (resourcePermissionUpdate cl old d).1.countP isCreateCall = 0)) ∧
    (hasChangesPermissionKeyFields old d = true →
      ((resourcePermissionUpdate cl old d).1.take 2 =
         [ApiCall.deletePermission d.id,
          ApiCall.createPermission (mapResourceToPermission d)] ∧
       (resourcePermissionUpdate cl old d).1.countP isDeleteCall = 1 ∧
       (resourcePermissionUpdate cl old d).1.countP isCreateCall = 1 ∧
       ApiCall.createPermission (mapResourceToPermission d) ∈
         (resourcePermissionUpdate cl old d).1)) ∧
    (hasChangesPermissionKeyFields old d = true →
      ∀ f, resourcePermissionUpdate { cl with deletePermission := f } old d =
        resourcePermissionUpdate cl old d) := by
  refine ⟨?_, ?_, ?_⟩
  · intro hkeys htags
    cases hupd : cl.updatePermissionTags (mapResourceToPermission d) with
    | error e =>
      simp [resourcePermissionUpdate, hkeys, htags, hupd,
        isUpdateTagsCall, isDeleteCall, isCreateCall]
    | ok u =>
      by_cases hid : d.id = "" <;>
        simp [resourcePermissionUpdate, resourcePermissionRead, hkeys, htags, hupd, hid,
          isUpdateTagsCall, isDeleteCall, isCreateCall]
  · intro hkeys
    cases hcr : cl.createPermission (mapResourceToPermission d) with
    | error e =>
      simp [resourcePermissionUpdate, resourcePermissionDelete, hkeys, hcr,
        isUpdateTagsCall, isDeleteCall, isCreateCall]
    | ok resp =>
      by_cases hid : resp.ID = "" <;>
        simp [resourcePermissionUpdate, resourcePermissionDelete,
          resourcePermissionRead, hkeys, hcr, hid,
          isUpdateTagsCall, isDeleteCall, isCreateCall]
  · intro hkeys f
    have hread : ∀ x, resourcePermissionRead { cl with deletePermission := f } x =
        resourcePermissionRead cl x := fun _ => rfl
    cases hcr : cl.createPermission (mapResourceToPermission d) <;>
      simp [resourcePermissionUpdate, resourcePermissionDelete, hkeys, hcr, hread]

/-- Witness for C4: with a client whose delete always fails, a team-only
change still issues delete-then-create as the first two calls. -/
theorem resourcePermissionUpdate_call_pattern_witness :
    (resourcePermissionUpdate
        { createPermission := fun p => .ok p
          deletePermission := fun _ => .error "delete failed"
          updatePermissionTags := fun _ => .ok ()
          getPermissionByID := fun i =>
            .ok { ID := i, Team := "t2", Action := "read", Resource := "pipeline",
                  RelatedResource := "", RuleType := "any", Tags := ["x"] } }
        { id := "id1", idAttr := "id1", team := "t1", resource := "pipeline",
          relatedResource := "", action := "read", ruleType := "any", tags := ["x"] }
        { id := "id1", idAttr := "id1", team := "t2", resource := "pipeline",
          relatedResource := "", action := "read", ruleType := "any", tags := ["x"] }).1.take 2 =
      [ApiCall.deletePermission "id1",
       ApiCall.createPermission (mapResourceToPermission
        { id := "id1", idAttr := "id1", team := "t2", resource := "pipeline",
          relatedResource := "", action := "read", ruleType := "any", tags := ["x"] })] := by
  exact ((resourcePermissionUpdate_call_pattern
    { createPermission := fun p => .ok p
      deletePermission := fun _ => .error "delete failed"
      updatePermissionTags := fun _ => .ok ()
      getPermissionByID := fun i =>
        .ok { ID := i, Team := "t2", Action := "read", Resource := "pipeline",
              RelatedResource := "", RuleType := "any", Tags := ["x"] } }
    { id := "id1", idAttr := "id1", team := "t1", resource := "pipeline",
      relatedResource := "", action := "read", ruleType := "any", tags := ["x"] }
    { id := "id1", idAttr := "id1", team := "t2", resource := "pipeline",
      relatedResource := "", action := "read", ruleType := "any", tags := ["x"] }).2.1
    (by decide)).1

/-- C5: on any change touching the implicated fields, the custom diff
rejects a non-empty related_resource with a resource other than pipeline,
and rejects an action among run, approve, debug with a resource other than
pipeline; a configuration with action run and resource pipeline always
passes. -/
theorem resourcePermissionCustomDiff_spec (old d : PermissionResource) :
    ((old.resource ≠ d.resource ∨ old.relatedResource ≠ d.relatedResource) →
      d.relatedResource ≠ "" → d.resource ≠ "pipeline" →
      ∃ e, resourcePermissionCustomDiff old d = .error e) ∧
    ((old.resource ≠ d.resource ∨ old.action ≠ d.action) →
      d.action ∈ ["run", "approve", "debug"] → d.resource ≠ "pipeline" →
      ∃ e, resourcePermissionCustomDiff old d = .error e) ∧
    (d.action = "run" → d.resource = "pipeline" →
      resourcePermissionCustomDiff old d = .ok ()) := by
  refine ⟨?_, ?_, ?_⟩
  · intro hch hrel hres
    have hcond : ((old.resource != d.resource || old.relatedResource != d.relatedResource) &&
        (d.relatedResource != "" && d.resource != "pipeline")) = true := by
      simp only [Bool.and_eq_true, Bool.or_eq_true, bne_iff_ne]
      exact ⟨hch, hrel, hres⟩
    exact ⟨"related_resource is only valid when resource is pipeline",
      by unfold resourcePermissionCustomDiff; rw [if_pos hcond]⟩
  · intro hch hact hres
    simp only [List.mem_cons, List.not_mem_nil, or_false] at hact
    have hcond : ((old.resource != d.resource || old.action != d.action) &&
        (["run", "approve", "debug"].contains d.action && d.resource != "pipeline")) = true := by
      simp only [Bool.and_eq_true, Bool.or_eq_true, bne_iff_ne]
      refine ⟨hch, ?_, hres⟩
      rcases hact with h | h | h <;> simp [h]
    by_cases hfirst : ((old.resource != d.resource || old.relatedResource != d.relatedResource) &&
        (d.relatedResource != "" && d.resource != "pipeline")) = true
    · exact ⟨"related_resource is only valid when resource is pipeline",
        by unfold resourcePermissionCustomDiff; rw [if_pos hfirst]⟩
    · exact ⟨"action " ++ d.action ++ " is only valid when resource is pipeline",
        by unfold resourcePermissionCustomDiff; rw [if_neg hfirst, if_pos hcond]⟩
  · intro hact hres
    simp [resourcePermissionCustomDiff, hres]

/-- Witness for C5: a concrete configuration with action run and resource
pipeline passes the custom diff. -/
theorem resourcePermissionCustomDiff_spec_witness :
    resourcePermissionCustomDiff
      { id := "i", idAttr := "i", team := "t", resource := "cluster",
        relatedResource := "", action := "read", ruleType := "any", tags := [] }
      { id := "i", idAttr := "i", team := "t", resource := "pipeline",
        relatedResource := "", action := "run", ruleType := "any", tags := [] }
      = .ok () := by
  exact (resourcePermissionCustomDiff_spec
    { id := "i", idAttr := "i", team := "t", resource := "cluster",
      relatedResource := "", action := "read", ruleType := "any", tags := [] }
    { id := "i", idAttr := "i", team := "t", resource := "pipeline",
      relatedResource := "", action := "run", ruleType := "any", tags := [] }).2.2
    rfl rfl

/-- C9: an empty declared tag set is mapped to the default
`["*", "untagged"]`, and consequently every outbound permission carries a
non-empty tag list. -/
theorem mapResourceToPermission_default_tags (d : PermissionResource) :
    (d.tags = [] → (mapResourceToPermission d).Tags = ["*", "untagged"]) ∧
    (mapResourceToPermission d).Tags ≠ [] := by
  constructor
  · intro h
    simp [mapResourceToPermission, h]
  · cases htags : d.tags with
    | nil => simp [mapResourceToPermission, htags]
    | cons a as => simp [mapResourceToPermission, htags, ConvertStringArr]

/-- Witness for C9 at a concrete resource with no declared tags. -/
theorem mapResourceToPermission_default_tags_witness :
    (mapResourceToPermission
      { id := "i", idAttr := "i", team := "t", resource := "pipeline",
        relatedResource := "", action := "run", ruleType := "any",
        tags := [] }).Tags = ["*", "untagged"] := by
  exact (mapResourceToPermission_default_tags
    { id := "i", idAttr := "i", team := "t", resource := "pipeline",
      relatedResource := "", action := "run", ruleType := "any",
      tags := [] }).1 rfl

/- ============ Pipeline resource (resource_pipeline.go source part) ============ -/

/-- `cfClient.Variable`: one pipeline or trigger variable. -/
structure Variable where
  Key : String
  Value : String
deriving Repr, DecidableEq

/-- `cfClient.SpecTemplate`. -/
structure SpecTemplate where
  Location : String
  Repo : String
  Path : String
  Revision : String
  Context : String
deriving Repr, DecidableEq

/-- `cfClient.Trigger`.  The Go field `Type` is written `Type_` because
`Type` is reserved in Lean. -/
structure Trigger where
  Name : String
  Description : String
  Type_ : String
  Repo : String
  BranchRegex : String
  ModifiedFilesGlob : String
  Provider : String
  Disabled : Bool
  Context : String
  Events : List String
  Variables : List Variable
deriving Repr, DecidableEq

/-- `cfClient.Labels`. -/
structure Labels where
  Tags : List String
deriving Repr, DecidableEq

/-- `cfClient.Metadata`. -/
structure Metadata where
  Name : String
  ProjectId : String
  ID : String
  Labels : Labels
deriving Repr, DecidableEq

/-- `cfClient.Spec` of a pipeline. -/
structure PipelineSpec where
  SpecTemplate : SpecTemplate
  Priority : Int
  Concurrency : Int
  Triggers : List Trigger
  Variables : List Variable
deriving Repr, DecidableEq

/-- `cfClient.Pipeline`. -/
structure Pipeline where
  Metadata : Metadata
  Spec : PipelineSpec
deriving Repr, DecidableEq

/-- One `trigger` block of the pipeline resource schema.  A field whose
schema entry declares a `Default` is modelled as an `Option`: `none` means
the practitioner omitted it, and `d.Get` then yields the schema default
(`type` defaults to "git", `branch_regex` to "/.*/gi", `provider` and
`context` to "github", `disabled` to false, `modified_files_glob` to "").
The schema key `variables` is written `vars` because `variables` is
reserved in Lean. -/
structure TriggerResource where
  name : Option String
  description : Option String
  type : Option String
  repo : Option String
  branch_regex : Option String
  modified_files_glob : Option String
  events : List String
  provider : Option String
  disabled : Option Bool
  context : Option String
  vars : List (String × String)
deriving Repr, DecidableEq

/-- The `spec_template` block: `location` defaults to "git", `context` to
"github"; `repo`, `path`, `revision` are required. -/
structure SpecTemplateResource where
  location : Option String
  repo : String
  path : String
  revision : String
  context : Option String
deriving Repr, DecidableEq

/-- The single `spec` block of the pipeline resource: `priority` and
`concurrency` default to 0.  The schema key `variables` is written
`vars`. -/
structure PipelineSpecResource where
  priority : Option Int
  concurrency : Option Int
  spec_template : Option SpecTemplateResource
  vars : List (String × String)
  trigger : List TriggerResource
deriving Repr, DecidableEq

/-- The pipeline resource data. -/
structure PipelineResource where
  name : String
  project_id : String
  tags : List String
  spec : PipelineSpecResource
deriving Repr, DecidableEq

/-- Modelled from the spec: `convertStringArr` is a repository helper not
under src/; it converts a `[]interface\x7b\x7d` of strings to `[]string`,
identity in this typed embedding. -/
def convertStringArr (l : List String) : List String := l

/-- Modelled from the spec: `SetVariables` on `cfClient.Pipeline` and
`cfClient.Trigger` is not under src/; per the data model it stores the
declared variables map as the API variable list. -/
def setVariablesFromMap (m : List (String × String)) : List Variable :=
  m.map (fun p => { Key := p.1, Value := p.2 })

/-- `d.Get("spec.0.spec_template.0.<field>")`: when the block is absent the
address does not exist and `Get` yields the zero value; when present,
per-field schema defaults apply to omitted fields. -/
def getSpecTemplate : Option SpecTemplateResource → SpecTemplate
  | none =>
    { Location := "", Repo := "", Path := "", Revision := "", Context := "" }
  | some st =>
    { Location := st.location.getD "git"
      Repo := st.repo
      Path := st.path
      Revision := st.revision
      Context := st.context.getD "github" }

/-- The body of the trigger loop in `mapResourceToPipeline`: each field is
read positionally with `d.Get`, so omitted optional fields take the
schema defaults of the trigger block. -/
def mapResourceToTrigger (t : TriggerResource) : Trigger :=
  { Name := t.name.getD ""
    Description := t.description.getD ""
    Type_ := t.type.getD "git"
    Repo := t.repo.getD ""
    BranchRegex := t.branch_regex.getD "/.*/gi"
    ModifiedFilesGlob := t.modified_files_glob.getD ""
    Provider := t.provider.getD "github"
    Disabled := t.disabled.getD false
    Context := t.context.getD "github"
    Events := convertStringArr t.events
    Variables := setVariablesFromMap t.vars }

/-- `mapResourceToPipeline` from the pipeline resource source. -/
def mapResourceToPipeline (d : PipelineResource) : Pipeline :=
  { Metadata :=
      { Name := d.name
        ProjectId := d.project_id
        ID := ""
        Labels := { Tags := convertStringArr d.tags } }
    Spec :=
      { SpecTemplate := getSpecTemplate d.spec.spec_template
        Priority := d.spec.priority.getD 0
        Concurrency := d.spec.concurrency.getD 0
        Variables := setVariablesFromMap d.spec.vars
        Triggers := d.spec.trigger.map mapResourceToTrigger } }

/-- C7: when the first trigger block omits `type` and `branch_regex`, the
pipeline built by `mapResourceToPipeline` has the first trigger with
`Type = "git"` and `BranchRegex = "/.*/gi"`. -/
theorem mapResourceToPipeline_trigger_defaults
    (d : PipelineResource) (t : TriggerResource) (rest : List TriggerResource)
    (hts : d.spec.trigger = t :: rest)
    (hty : t.type = none) (hbr : t.branch_regex = none) :
    ∃ tr rest2, (mapResourceToPipeline d).Spec.Triggers = tr :: rest2 ∧
      tr.Type_ = "git" ∧ tr.BranchRegex = "/.*/gi" := by
  refine ⟨mapResourceToTrigger t, rest.map mapResourceToTrigger, ?_, ?_, ?_⟩
  · simp [mapResourceToPipeline, hts]
  · simp [mapResourceToTrigger, hty]
  · simp [mapResourceToTrigger, hbr]

/-- Witness for C7 at a concrete pipeline resource whose only trigger omits
`type` and `branch_regex`. -/
theorem mapResourceToPipeline_trigger_defaults_witness :
    ∃ tr rest2,
      (mapResourceToPipeline
        { name := "p", project_id := "", tags := []
          spec := { priority := none, concurrency := none, spec_template := none
                    vars := []
                    trigger := [{ name := some "t", description := none, type := none
                                  repo := some "o/r", branch_regex := none
                                  modified_files_glob := none, events := ["push"]
                                  provider := none, disabled := none, context := none
                                  vars := [] }] } }).Spec.Triggers = tr :: rest2 ∧
      tr.Type_ = "git" ∧ tr.BranchRegex = "/.*/gi" := by
  exact mapResourceToPipeline_trigger_defaults
    { name := "p", project_id := "", tags := []
      spec := { priority := none, concurrency := none, spec_template := none
                vars := []
                trigger := [{ name := some "t", description := none, type := none
                              repo := some "o/r", branch_regex := none
                              modified_files_glob := none, events := ["push"]
                              provider := none, disabled := none, context := none
                              vars := [] }] } }
    { name := some "t", description := none, type := none
      repo := some "o/r", branch_regex := none
      modified_files_glob := none, events := ["push"]
      provider := none, disabled := none, context := none
      vars := [] }
    [] rfl rfl rfl

/- ========= Context resource (resource_context.go source part) ========= -/

/-- A Go `interface\x7b\x7d` value as it appears inside a context data map:
a string, a nested map, or a list. -/
inductive CtxVal where
  | str : String → CtxVal
  | node : List (String × CtxVal) → CtxVal
  | arr : List CtxVal → CtxVal

/-- A Go `map[string]interface\x7b\x7d` in one iteration order. -/
def CtxMap := List (String × CtxVal)

/-- `cfclient.ContextMetadata`. -/
structure ContextMetadata where
  Name : String

/-- `cfclient.ContextSpec`: the Go field `Type` is written `Type_` because
`Type` is reserved in Lean; `Data` is a nilable map (`none` = Go nil). -/
structure ContextSpec where
  Type_ : String
  Data : Option CtxMap

/-- `cfclient.Context`. -/
structure Context where
  Metadata : ContextMetadata
  Spec : ContextSpec

/-- The context type constants of resource_context.go. -/
def contextConfig : String := "config"

def contextSecret : String := "secret"

def contextYaml : String := "yaml"

def contextSecretYaml : String := "secret-yaml"

def contextGoogleStorage : String := "storage.gc"

def contextS3Storage : String := "storage.s3"

def contextAzureStorage : String := "storage.azuref"

/-- `supportedContextType` from resource_context.go: the four supported
(non-storage) variants. -/
def supportedContextType : List String :=
  [contextConfig, contextSecret, contextYaml, contextSecretYaml]

/-- `encryptedContextTypes` from resource_context.go. -/
def encryptedContextTypes : List String :=
  [contextSecret, contextSecretYaml, contextS3Storage, contextAzureStorage]

/-- Modelled from the spec: `schemautil.MustNormalizeFieldName` is not under
src/; it turns a context type name into a legal schema field key, which we
model as replacing the separator characters with underscores. -/
def MustNormalizeFieldName (s : String) : String :=
  String.mk (s.data.map (fun c => if c = '.' then '_' else if c = '-' then '_' else c))

/-- Modelled from the spec: the repository-wide `contains` helper for string
slices, used by resource_context.go; it is not under src/. -/
def contains (slice : List String) (s : String) : Bool :=
  slice.contains s

/-- The single `spec` block of the context resource, one field per variant.
Per Terraform `GetOk` semantics a variant is populated iff its `data` is
non-empty (an absent block and an empty data value are both zero). -/
structure ContextSpecBlock where
  config : List (String × String)
  secret : List (String × String)
  yaml : String
  secretyaml : String
  storagegc : List CtxMap
  storages3 : List CtxMap
  storageazuref : List CtxMap

/-- The context resource data. -/
structure ContextResource where
  name : String
  decrypt_spec : Bool
  spec : ContextSpecBlock

/-- Modelled from the spec: the YAML codec (ghodss/yaml) is an excluded
encoding helper.  `parse` models `yaml.Unmarshal` into a fresh nil map:
`none` when unmarshalling fails (resource_context.go discards the error and
the map stays nil) or yields null, `some m` otherwise.  `print` models
`yaml.Marshal` of the data, `none` being a marshal error. -/
structure YamlCodec where
  parse : String → Option CtxMap
  print : Option CtxMap → Option String

/-- Modelled from the spec: `storageContext.ConvertJsonConfigStorageContext`
(codefresh/context package, not under src/) converts the nested block list
of a JSON-config storage context into the API data map; modelled as an
opaque injective wrapping. -/
def ConvertJsonConfigStorageContext (l : List CtxMap) : CtxMap :=
  [("blocks", CtxVal.arr (l.map CtxVal.node))]

/-- Modelled from the spec: `storageContext.ConvertAzureStorageContext`
(codefresh/context package, not under src/), the Azure counterpart. -/
def ConvertAzureStorageContext (l : List CtxMap) : CtxMap :=
  [("azureBlocks", CtxVal.arr (l.map CtxVal.node))]

/-- `getContextTypeFromResource` from resource_context.go: the first
populated variant in the fixed order config, secret, yaml, secret-yaml,
storage.gc, storage.s3, storage.azuref; empty string when none is. -/
def getContextTypeFromResource (d : ContextResource) : String :=
  if !d.spec.config.isEmpty then contextConfig
  else if !d.spec.secret.isEmpty then contextSecret
  else if !d.spec.yaml.isEmpty then contextYaml
  else if !d.spec.secretyaml.isEmpty then contextSecretYaml
  else if !d.spec.storagegc.isEmpty then contextGoogleStorage
  else if !d.spec.storages3.isEmpty then contextS3Storage
  else if !d.spec.storageazuref.isEmpty then contextAzureStorage
  else ""

/-- The map data of a `config`/`secret` variant (values are schema-typed
strings) as an API data map. -/
def strMapToCtxMap (m : List (String × String)) : CtxMap :=
  m.map (fun p => (p.1, CtxVal.str p.2))

/-- `mapResourceToContext` from resource_context.go: the first populated
variant wins; for the YAML variants the data string is unmarshalled and
the error deliberately discarded (nil data on failure); when nothing is
populated the type is the empty string and the data nil. -/
def mapResourceToContext (c : YamlCodec) (d : ContextResource) : Context :=
  let td : String × Option CtxMap :=
    if !d.spec.config.isEmpty then
      (contextConfig, some (strMapToCtxMap d.spec.config))
    else if !d.spec.secret.isEmpty then
      (contextSecret, some (strMapToCtxMap d.spec.secret))
    else if !d.spec.yaml.isEmpty then
      (contextYaml, c.parse d.spec.yaml)
    else if !d.spec.secretyaml.isEmpty then
      (contextSecretYaml, c.parse d.spec.secretyaml)
    else if !d.spec.storagegc.isEmpty then
      (contextGoogleStorage, some (ConvertJsonConfigStorageContext d.spec.storagegc))
    else if !d.spec.storages3.isEmpty then
      (contextS3Storage, some (ConvertJsonConfigStorageContext d.spec.storages3))
    else if !d.spec.storageazuref.isEmpty then
      (contextAzureStorage, some (ConvertAzureStorageContext d.spec.storageazuref))
    else
      ("", none)
  { Metadata := { Name := d.name }, Spec := { Type_ := td.1, Data := td.2 } }

/-- The `[]interface\x7b\x7d` value produced by `flattenContextSpec`: the
normalized variant key and its payload. -/
inductive FlatPayload where
  | mapData : Option CtxMap → FlatPayload
  | yamlData : Option String → FlatPayload
  | storageData : List CtxMap → FlatPayload

structure FlatSpec where
  variant : String
  payload : FlatPayload

/-- `flattenContextConfig` from resource_context.go: `[\x7bdata:
spec.Data\x7d]`. -/
def flattenContextConfig (spec : ContextSpec) : Option CtxMap :=
  spec.Data

/-- `flattenContextYaml` from resource_context.go: `yaml.Marshal(spec.Data)`
as the data string; `none` when marshalling fails (the function returns
nil). -/
def flattenContextYaml (c : YamlCodec) (spec : ContextSpec) : Option String :=
  c.print spec.Data

/-- Modelled from the spec:
`storageContext.FlattenJsonConfigStorageContextConfig` (codefresh/context
package, not under src/), the inverse direction of the JSON-config storage
conversion. -/
def FlattenJsonConfigStorageContextConfig (spec : ContextSpec) : List CtxMap :=
  match spec.Data with
  | some [(_, CtxVal.arr vs)] =>
    vs.filterMap (fun v => match v with | CtxVal.node m => some m | _ => none)
  | _ => []

/-- Modelled from the spec:
`storageContext.FlattenAzureStorageContextConfig` (codefresh/context
package, not under src/), the Azure counterpart. -/
def FlattenAzureStorageContextConfig (spec : ContextSpec) : List CtxMap :=
  match spec.Data with
  | some [(_, CtxVal.arr vs)] =>
    vs.filterMap (fun v => match v with | CtxVal.node m => some m | _ => none)
  | _ => []

/-- `flattenContextSpec` from resource_context.go: dispatch on the context
type; unknown types yield nil. -/
def flattenContextSpec (c : YamlCodec) (spec : ContextSpec) : Option FlatSpec :=
  if spec.Type_ = contextConfig ∨ spec.Type_ = contextSecret then
    some { variant := MustNormalizeFieldName spec.Type_
           payload := FlatPayload.mapData (flattenContextConfig spec) }
  else if spec.Type_ = contextYaml ∨ spec.Type_ = contextSecretYaml then
    some { variant := MustNormalizeFieldName spec.Type_
           payload := FlatPayload.yamlData (flattenContextYaml c spec) }
  else if spec.Type_ = contextGoogleStorage ∨ spec.Type_ = contextS3Storage then
    some { variant := MustNormalizeFieldName spec.Type_
           payload := FlatPayload.storageData (FlattenJsonConfigStorageContextConfig spec) }
  else if spec.Type_ = contextAzureStorage then
    some { variant := MustNormalizeFieldName spec.Type_
           payload := FlatPayload.storageData (FlattenAzureStorageContextConfig spec) }
  else
    none

/-- Schema validation of one value inside a `config`/`secret` data map on
`d.Set`: the schema declares string values, anything else is rejected. -/
def coerceStr : CtxVal → Except String String
  | .str s => .ok s
  | _ => .error "expected string value"

/-- Schema validation of a whole `config`/`secret` data map on `d.Set`. -/
def coerceStrMap : CtxMap → Except String (List (String × String))
  | [] => .ok []
  | (k, v) :: rest =>
    match coerceStr v, coerceStrMap rest with
    | .ok s, .ok tail => .ok ((k, s) :: tail)
    | .error e, _ => .error e
    | _, .error e => .error e

def emptyContextSpecBlock : ContextSpecBlock :=
  { config := [], secret := [], yaml := "", secretyaml := ""
    storagegc := [], storages3 := [], storageazuref := [] }

/-- `d.Set("spec", ...)`: the whole spec block is replaced, so exactly the
flattened variant is populated and every other variant is cleared; a nil
flattened spec clears everything; schema-mismatched values make the set
fail. -/
def setSpec (d : ContextResource) : Option FlatSpec → Except String ContextResource
  | none => .ok { d with spec := emptyContextSpecBlock }
  | some f =>
    if f.variant = MustNormalizeFieldName contextConfig then
      match f.payload with
      | .mapData dm =>
        (coerceStrMap (dm.getD [])).map
          (fun sm => { d with spec := { emptyContextSpecBlock with config := sm } })
      | _ => .error "unexpected spec shape"
    else if f.variant = MustNormalizeFieldName contextSecret then
      match f.payload with
      | .mapData dm =>
        (coerceStrMap (dm.getD [])).map
          (fun sm => { d with spec := { emptyContextSpecBlock with secret := sm } })
      | _ => .error "unexpected spec shape"
    else if f.variant = MustNormalizeFieldName contextYaml then
      match f.payload with
      | .yamlData os =>
        .ok { d with spec := { emptyContextSpecBlock with yaml := os.getD "" } }
      | _ => .error "unexpected spec shape"
    else if f.variant = MustNormalizeFieldName contextSecretYaml then
      match f.payload with
      | .yamlData os =>
        .ok { d with spec := { emptyContextSpecBlock with secretyaml := os.getD "" } }
      | _ => .error "unexpected spec shape"
    else if f.variant = MustNormalizeFieldName contextGoogleStorage then
      match f.payload with
      | .storageData l =>
        .ok { d with spec := { emptyContextSpecBlock with storagegc := l } }
      | _ => .error "unexpected spec shape"
    else if f.variant = MustNormalizeFieldName contextS3Storage then
      match f.payload with
      | .storageData l =>
        .ok { d with spec := { emptyContextSpecBlock with storages3 := l } }
      | _ => .error "unexpected spec shape"
    else if f.variant = MustNormalizeFieldName contextAzureStorage then
      match f.payload with
      | .storageData l =>
        .ok { d with spec := { emptyContextSpecBlock with storageazuref := l } }
      | _ => .error "unexpected spec shape"
    else
      .error "unexpected spec shape"

/-- `mapContextToResource` from resource_context.go: set the name, then set
the flattened spec only when the current variant is unencrypted or
`decrypt_spec` is true; otherwise leave the stored spec untouched. -/
def mapContextToResource (c : YamlCodec) (context : Context) (d : ContextResource) :
    Except String ContextResource :=
  let d1 : ContextResource := { d with name := context.Metadata.Name }
  let currentContextType := getContextTypeFromResource d1
  if d1.decrypt_spec || !(contains encryptedContextTypes currentContextType) then
    setSpec d1 (flattenContextSpec c context.Spec)
  else
    .ok d1

theorem isEmpty_false_of_ne_nil {α} {l : List α} (h : l ≠ []) : l.isEmpty = false := by
  cases l
  · exact absurd rfl h
  · rfl

theorem str_isEmpty_false {s : String} (h : s ≠ "") : s.isEmpty = false := by
  rw [Bool.eq_false_iff]
  intro hx
  exact h ((String.isEmpty_iff s).mp hx)

/-- The fixed precedence order of the seven variants, as the spec states
it: config, secret, yaml, secret-yaml, then the three storage types. -/
def contextTypePrecedence : List String :=
  [contextConfig, contextSecret, contextYaml, contextSecretYaml,
   contextGoogleStorage, contextS3Storage, contextAzureStorage]

/-- Following the spec's words: whether the configuration tree populates
the given variant block. -/
def variantPopulated (d : ContextResource) (t : String) : Bool :=
  if t = contextConfig then !d.spec.config.isEmpty
  else if t = contextSecret then !d.spec.secret.isEmpty
  else if t = contextYaml then !d.spec.yaml.isEmpty
  else if t = contextSecretYaml then !d.spec.secretyaml.isEmpty
  else if t = contextGoogleStorage then !d.spec.storagegc.isEmpty
  else if t = contextS3Storage then !d.spec.storages3.isEmpty
  else if t = contextAzureStorage then !d.spec.storageazuref.isEmpty
  else false

/-- C3: the variant detector returns exactly the first populated variant in
the fixed precedence order config, secret, yaml, secret-yaml, storage.gc,
storage.s3, storage.azuref, and the empty string when none is populated;
in particular, with exactly one populated variant it returns that one. -/
theorem getContextTypeFromResource_first_populated (d : ContextResource) :
    getContextTypeFromResource d =
      ((contextTypePrecedence.filter (variantPopulated d)).headD "") := by
  cases hc : d.spec.config.isEmpty <;>
  cases hs : d.spec.secret.isEmpty <;>
  cases hy : d.spec.yaml.isEmpty <;>
  cases hsy : d.spec.secretyaml.isEmpty <;>
  cases hgc : d.spec.storagegc.isEmpty <;>
  cases hs3 : d.spec.storages3.isEmpty <;>
  cases haz : d.spec.storageazuref.isEmpty <;>
  simp [getContextTypeFromResource, contextTypePrecedence, variantPopulated,
    List.filter, hc, hs, hy, hsy, hgc, hs3, haz,
    contextConfig, contextSecret, contextYaml, contextSecretYaml,
    contextGoogleStorage, contextS3Storage, contextAzureStorage]

theorem norm_config_lit : MustNormalizeFieldName "config" = "config" := rfl

theorem norm_secret_lit : MustNormalizeFieldName "secret" = "secret" := rfl

theorem norm_yaml_lit : MustNormalizeFieldName "yaml" = "yaml" := rfl

theorem norm_secretyaml_lit : MustNormalizeFieldName "secret-yaml" = "secret_yaml" := rfl

theorem contains_enc_config_lit : contains encryptedContextTypes "config" = false := rfl

theorem contains_enc_secret_lit : contains encryptedContextTypes "secret" = true := rfl

theorem contains_enc_yaml_lit : contains encryptedContextTypes "yaml" = false := rfl

theorem contains_enc_secretyaml_lit :
    contains encryptedContextTypes "secret-yaml" = true := rfl

theorem empty_str_isEmpty : "".isEmpty = true := rfl

theorem coerceStrMap_strMapToCtxMap (m : List (String × String)) :
    coerceStrMap (strMapToCtxMap m) = .ok m := by
  induction m with
  | nil => rfl
  | cons p ps ih =>
    simp only [strMapToCtxMap] at ih
    simp [strMapToCtxMap, coerceStrMap, coerceStr, ih]

/-- Exactly the `config` variant block is populated. -/
def onlyConfigPopulated (d : ContextResource) : Prop :=
  d.spec.config ≠ [] ∧ d.spec.secret = [] ∧ d.spec.yaml = "" ∧
  d.spec.secretyaml = "" ∧ d.spec.storagegc = [] ∧ d.spec.storages3 = [] ∧
  d.spec.storageazuref = []

/-- Exactly the `secret` variant block is populated. -/
def onlySecretPopulated (d : ContextResource) : Prop :=
  d.spec.secret ≠ [] ∧ d.spec.config = [] ∧ d.spec.yaml = "" ∧
  d.spec.secretyaml = "" ∧ d.spec.storagegc = [] ∧ d.spec.storages3 = [] ∧
  d.spec.storageazuref = []

/-- Exactly the `yaml` variant block is populated. -/
def onlyYamlPopulated (d : ContextResource) : Prop :=
  d.spec.yaml ≠ "" ∧ d.spec.config = [] ∧ d.spec.secret = [] ∧
  d.spec.secretyaml = "" ∧ d.spec.storagegc = [] ∧ d.spec.storages3 = [] ∧
  d.spec.storageazuref = []

/-- Exactly the `secret-yaml` variant block is populated. -/
def onlySecretYamlPopulated (d : ContextResource) : Prop :=
  d.spec.secretyaml ≠ "" ∧ d.spec.config = [] ∧ d.spec.secret = [] ∧
  d.spec.yaml = "" ∧ d.spec.storagegc = [] ∧ d.spec.storages3 = [] ∧
  d.spec.storageazuref = []

/-- The stored YAML string is in the codec's normal form: it parses, and
printing the parse result reproduces it.  The schema's
`MustNormalizeYamlString` state function guarantees this for stored
state. -/
def yamlNormalFor (c : YamlCodec) (s : String) : Prop :=
  ∃ m, c.parse s = some m ∧ c.print (some m) = some s

/-- C1: for every context resource populating exactly one supported variant
(`supportedContextType`: config, secret, yaml, secret-yaml), the round trip
`mapContextToResource (mapResourceToContext d) d` reproduces the resource
exactly — for the unencrypted variants unconditionally, and for the
encrypted ones when `decrypt_spec` is true; for the YAML variants the
stored string must be in the codec's normal form, which the schema's state
function guarantees. -/
theorem context_roundtrip (c : YamlCodec) (d : ContextResource)
    (h : onlyConfigPopulated d ∨
         (onlySecretPopulated d ∧ d.decrypt_spec = true) ∨
         (onlyYamlPopulated d ∧ yamlNormalFor c d.spec.yaml) ∨
         (onlySecretYamlPopulated d ∧ d.decrypt_spec = true ∧
          yamlNormalFor c d.spec.secretyaml)) :
    mapContextToResource c (mapResourceToContext c d) d = .ok d := by
  rcases d with ⟨dn, dd, ⟨cfg, sec, ya, sya, gc, s3, az⟩⟩
  rcases h with ⟨h1, h2, h3, h4, h5, h6, h7⟩ |
    ⟨⟨h1, h2, h3, h4, h5, h6, h7⟩, hdec⟩ |
    ⟨⟨h1, h2, h3, h4, h5, h6, h7⟩, m, hp, hpr⟩ |
    ⟨⟨h1, h2, h3, h4, h5, h6, h7⟩, hdec, m, hp, hpr⟩
  · replace h1 : cfg ≠ [] := h1
    subst h2 h3 h4 h5 h6 h7
    have hne := isEmpty_false_of_ne_nil h1
    simp [mapResourceToContext, mapContextToResource, getContextTypeFromResource,
      setSpec, flattenContextSpec, flattenContextConfig, emptyContextSpecBlock,
      norm_config_lit, norm_secret_lit, norm_yaml_lit, norm_secretyaml_lit,
      contains_enc_config_lit, empty_str_isEmpty,
      contextConfig, contextSecret, contextYaml, contextSecretYaml,
      contextGoogleStorage, contextS3Storage, contextAzureStorage,
      hne, coerceStrMap_strMapToCtxMap, Except.map]
  · replace h1 : sec ≠ [] := h1
    replace hdec : dd = true := hdec
    subst h2 h3 h4 h5 h6 h7 hdec
    have hne := isEmpty_false_of_ne_nil h1
    simp [mapResourceToContext, mapContextToResource, getContextTypeFromResource,
      setSpec, flattenContextSpec, flattenContextConfig, emptyContextSpecBlock,
      norm_config_lit, norm_secret_lit, norm_yaml_lit, norm_secretyaml_lit,
      contains_enc_secret_lit, empty_str_isEmpty,
      contextConfig, contextSecret, contextYaml, contextSecretYaml,
      contextGoogleStorage, contextS3Storage, contextAzureStorage,
      hne, coerceStrMap_strMapToCtxMap, Except.map]
  · replace h1 : ya ≠ "" := h1
    replace hp : c.parse ya = some m := hp
    replace hpr : c.print (some m) = some ya := hpr
    subst h2 h3 h4 h5 h6 h7
    have hne := str_isEmpty_false h1
    simp [mapResourceToContext, mapContextToResource, getContextTypeFromResource,
      setSpec, flattenContextSpec, flattenContextYaml, emptyContextSpecBlock,
      norm_config_lit, norm_secret_lit, norm_yaml_lit, norm_secretyaml_lit,
      contains_enc_yaml_lit, empty_str_isEmpty,
      contextConfig, contextSecret, contextYaml, contextSecretYaml,
      contextGoogleStorage, contextS3Storage, contextAzureStorage,
      hne, hp, hpr, Except.map]
  · replace h1 : sya ≠ "" := h1
    replace hdec : dd = true := hdec
    replace hp : c.parse sya = some m := hp
    replace hpr : c.print (some m) = some sya := hpr
    subst h2 h3 h4 h5 h6 h7 hdec
    have hne := str_isEmpty_false h1
    simp [mapResourceToContext, mapContextToResource, getContextTypeFromResource,
      setSpec, flattenContextSpec, flattenContextYaml, emptyContextSpecBlock,
      norm_config_lit, norm_secret_lit, norm_yaml_lit, norm_secretyaml_lit,
      contains_enc_secretyaml_lit, empty_str_isEmpty,
      contextConfig, contextSecret, contextYaml, contextSecretYaml,
      contextGoogleStorage, contextS3Storage, contextAzureStorage,
      hne, hp, hpr, Except.map]

/-- Witness for C1: a concrete config-variant resource round-trips exactly
(with an arbitrary codec, unused by the config variant). -/
theorem context_roundtrip_witness :
    mapContextToResource ⟨fun _ => none, fun _ => none⟩
      (mapResourceToContext ⟨fun _ => none, fun _ => none⟩
        { name := "n", decrypt_spec := true
          spec := { config := [("k", "v")], secret := [], yaml := "", secretyaml := ""
                    storagegc := [], storages3 := [], storageazuref := [] } })
      { name := "n", decrypt_spec := true
        spec := { config := [("k", "v")], secret := [], yaml := "", secretyaml := ""
                  storagegc := [], storages3 := [], storageazuref := [] } } =
    .ok
      { name := "n", decrypt_spec := true
        spec := { config := [("k", "v")], secret := [], yaml := "", secretyaml := ""
                  storagegc := [], storages3 := [], storageazuref := [] } } := by
  exact context_roundtrip ⟨fun _ => none, fun _ => none⟩
    { name := "n", decrypt_spec := true
      spec := { config := [("k", "v")], secret := [], yaml := "", secretyaml := ""
                storagegc := [], storages3 := [], storageazuref := [] } }
    (Or.inl ⟨by decide, rfl, rfl, rfl, rfl, rfl, rfl⟩)

/-- C2: when the current variant of the stored resource is encrypted and
`decrypt_spec` is false, `mapContextToResource` only writes the name and
leaves the previously stored `spec` field untouched, whatever the API
returned. -/
theorem mapContextToResource_encrypted_skip
    (c : YamlCodec) (ctx : Context) (d : ContextResource)
    (henc : contains encryptedContextTypes (getContextTypeFromResource d) = true)
    (hdec : d.decrypt_spec = false) :
    mapContextToResource c ctx d = .ok { d with name := ctx.Metadata.Name } ∧
    ({ d with name := ctx.Metadata.Name } : ContextResource).spec = d.spec := by
  constructor
  · have hty : ∀ nm dec,
        getContextTypeFromResource { name := nm, decrypt_spec := dec, spec := d.spec } =
          getContextTypeFromResource d := fun _ _ => rfl
    simp [mapContextToResource, hty, henc, hdec]
  · rfl

/-- Witness for C2: a stored secret-variant resource with `decrypt_spec`
false keeps its spec on read. -/
theorem mapContextToResource_encrypted_skip_witness :
    mapContextToResource ⟨fun _ => none, fun _ => none⟩
      { Metadata := { Name := "new" }, Spec := { Type_ := "secret", Data := none } }
      { name := "old", decrypt_spec := false
        spec := { config := [], secret := [("k", "v")], yaml := "", secretyaml := ""
                  storagegc := [], storages3 := [], storageazuref := [] } } =
    .ok { name := "new", decrypt_spec := false
          spec := { config := [], secret := [("k", "v")], yaml := "", secretyaml := ""
                    storagegc := [], storages3 := [], storageazuref := [] } } := by
  exact (mapContextToResource_encrypted_skip ⟨fun _ => none, fun _ => none⟩
    { Metadata := { Name := "new" }, Spec := { Type_ := "secret", Data := none } }
    { name := "old", decrypt_spec := false
      spec := { config := [], secret := [("k", "v")], yaml := "", secretyaml := ""
                storagegc := [], storages3 := [], storageazuref := [] } }
    (by decide) rfl).1

/-- C10: for the YAML variants, `mapResourceToContext` discards the
unmarshalling error: on a data string whose parse fails it still returns a
context with the variant type set and nil data — it is total and never
returns an error. -/
theorem mapResourceToContext_yaml_parse_error (c : YamlCodec) (d : ContextResource) :
    (d.spec.config = [] → d.spec.secret = [] → d.spec.yaml ≠ "" →
      c.parse d.spec.yaml = none →
      mapResourceToContext c d =
        { Metadata := { Name := d.name }
          Spec := { Type_ := contextYaml, Data := none } }) ∧
    (d.spec.config = [] → d.spec.secret = [] → d.spec.yaml = "" →
      d.spec.secretyaml ≠ "" → c.parse d.spec.secretyaml = none →
      mapResourceToContext c d =
        { Metadata := { Name := d.name }
          Spec := { Type_ := contextSecretYaml, Data := none } }) := by
  constructor
  · intro hc hs hy hp
    have hne := str_isEmpty_false hy
    simp [mapResourceToContext, hc, hs, hne, hp]
  · intro hc hs hy hsy hp
    have hne := str_isEmpty_false hsy
    simp [mapResourceToContext, hc, hs, hy, hne, hp, empty_str_isEmpty]

/-- Witness for C10: a concrete yaml-variant resource whose data string
fails to parse still maps to a yaml-typed context with nil data. -/
theorem mapResourceToContext_yaml_parse_error_witness :
    mapResourceToContext ⟨fun _ => none, fun _ => none⟩
      { name := "n", decrypt_spec := true
        spec := { config := [], secret := [], yaml := "a: [", secretyaml := ""
                  storagegc := [], storages3 := [], storageazuref := [] } } =
    { Metadata := { Name := "n" }
      Spec := { Type_ := contextYaml, Data := none } } := by
  exact (mapResourceToContext_yaml_parse_error ⟨fun _ => none, fun _ => none⟩
    { name := "n", decrypt_spec := true
      spec := { config := [], secret := [], yaml := "a: [", secretyaml := ""
                storagegc := [], storages3 := [], storageazuref := [] } }).1
    rfl rfl (by decide) rfl
